import Mathlib

/-!
# Verification of the active-record mapping layer (`src/modules/orm.py`)

A shallow embedding of the ORM core: table naming, idempotent table
creation, field population (fresh values or load-by-id), the
normalization hook pipeline, and save/update/insert/delete SQL effects,
over a structured model of the SQLite backend.

Conventions of the embedding:
* Column values are `Value := Option String` (`none` is SQL NULL /
  Python `None`; the schema only holds text/date columns).
* Python truthiness is modelled explicitly: `intTruthy` for the
  surrogate id (`if self.__id:`), `optStrTruthy` for cached strings and
  fetched names (`if not self.__table_name:`, catalog probe).
* Python keyword arguments are split into `pkArg : Option Int`
  (`some k` iff the reserved key `pk` is among the kwargs, which always
  holds an integer identifier in this code base) and the remaining
  field-value pairs `kwargs : List (String × Value)`.
* The attribute store of an instance is a cons-list: `setattr` conses,
  `getattr` takes the first (most recent) binding.
* The backend is modelled structurally: a `DB` maps table names to
  tables; each executed statement becomes one of the `db*` functions,
  whose error cases mirror SQLite's (missing table, unknown column,
  duplicate column, already-existing table).  `last_insert_rowid()`
  after an INSERT is the id SQLite assigns: one more than the largest
  rowid present (1 on an empty table).
-/

/-- A column value: `none` is SQL NULL / Python `None`. -/
abbrev Value := Option String

/-- Python truthiness of the surrogate id slot (`if self.__id:`):
`None` and `0` are falsy, every other integer is truthy. -/
def intTruthy : Option Int → Bool
  | none => false
  | some n => n ≠ 0

/-- Python truthiness of an optional string (`if not self.__table_name:`,
and of a fetched scalar that is a name): `None` and `""` are falsy. -/
def optStrTruthy : Option String → Bool
  | none => false
  | some s => s ≠ ""

/-- `Model.__method__get_database_field_type`: `'date' → 'date'`,
`'string' → 'text'`, anything else raises `AttributeError`. -/
def getDatabaseFieldType (fieldType : String) : Except String String :=
  if fieldType = "date" then .ok "date"
  else if fieldType ≠ "string" then
    .error ("Invalid field type: " ++ fieldType)
  else .ok "text"

/-- `str.lower()`, character-wise (class names here are ASCII
identifiers, on which Python lowering is exactly per-character ASCII
lowering). -/
def pyLower (s : String) : String := ⟨s.data.map Char.toLower⟩

/-- `str.endswith(suffix)`. -/
def pyEndsWith (s suffix : String) : Bool :=
  suffix.data.isSuffixOf s.data

/-- The table-name formula inside `Model.__property__table_name`:
`'tbl_{}{}'.format(model_name, '' if model_name.endswith('s') else 's')`
with `model_name = type(self).__name__.lower()`. -/
def tableNameOf (modelName : String) : String :=
  let m := pyLower modelName
  "tbl_" ++ m ++ (if pyEndsWith m "s" then "" else "s")

/-- `Model.__property__table_name` with its per-instance memoization:
takes the cached `self.__table_name` and returns the produced string
together with the new cache. -/
def propertyTableName (modelName : String) (cache : Option String) :
    String × Option String :=
  if optStrTruthy cache then (cache.getD "", cache)
  else
    let t := tableNameOf modelName
    (t, some t)

/-- An in-memory entity instance: the runtime type's name and `FIELDS`
(as Python carries them on the class), the private `self.__id`, and the
attribute store written by `setattr`. -/
structure ModelInst where
  name : String
  fields : List (String × String)
  id : Option Int
  attrs : List (String × Value)
  deriving Repr, DecidableEq

/-- `Model.__property__columns`: the field names, in declared order. -/
def columnsOf (fields : List (String × String)) : List String :=
  fields.map (·.1)

/-- `setattr(self, n, v)`: the new binding shadows any older one. -/
def setAttr (attrs : List (String × Value)) (n : String) (v : Value) :
    List (String × Value) :=
  (n, v) :: attrs

/-- `getattr(self, n)` as a partial lookup: `none` when the attribute
was never set (Python would raise `AttributeError`). -/
def getAttrRaw (attrs : List (String × Value)) (n : String) : Option Value :=
  (attrs.find? (fun p => p.1 = n)).map (·.2)

/-- `getattr(self, n)` on an instance whose attribute is set. -/
def getAttr (m : ModelInst) (n : String) : Value :=
  (getAttrRaw m.attrs n).getD none

/-- `Model.__property__values`:
`[getattr(self, field_name) for field_name, _ in self.FIELDS]`. -/
def propertyValues (m : ModelInst) : List Value :=
  m.fields.map (fun f => getAttr m f.1)

/-- `Model.__eq__`: walks `self.__property__columns` and compares
`getattr(self, column)` with `getattr(other, column)`; returns `False`
at the first mismatch, else `True`. -/
def modelEq (self other : ModelInst) : Bool :=
  (columnsOf self.fields).all
    (fun c => getAttrRaw self.attrs c == getAttrRaw other.attrs c)

/-- One backend table: the field columns (the integer primary-key id
column is kept apart) and the rows, each a rowid with its field
values in column order. -/
structure Table where
  cols : List String
  rows : List (Int × List Value)
  deriving Repr, DecidableEq

/-- The backend store: table name → table. -/
structure DB where
  tables : List (String × Table)
  deriving Repr, DecidableEq

/-- Name resolution in the catalog. -/
def lookupTable (db : DB) (tname : String) : Option Table :=
  (db.tables.find? (fun p => p.1 = tname)).map (·.2)

/-- The configuration the injected context supplies: the id-column
name (`self.context.config.DB_ID_FIELD`). -/
structure Config where
  idField : String
  deriving Repr, DecidableEq

/-- `Model.__method__create_table`: translates every field type
(raising on an unrecognized one, before any SQL runs), then executes
`CREATE TABLE`; the backend rejects an already-existing table and
duplicate column names. -/
def dbCreateTable (cfg : Config) (db : DB) (tname : String)
    (fields : List (String × String)) : Except String DB :=
  match fields.mapM (fun f => getDatabaseFieldType f.2) with
  | .error e => .error e
  | .ok _ =>
    match lookupTable db tname with
    | some _ => .error ("table " ++ tname ++ " already exists")
    | none =>
      if (cfg.idField :: columnsOf fields).Nodup then
        .ok ⟨db.tables ++ [(tname, ⟨columnsOf fields, []⟩)]⟩
      else .error "duplicate column name"

/-- The catalog probe in `Model.__method__create_table_if_necessary`:
`SELECT name FROM sqlite_master WHERE type='table' AND name=?`,
fetched as a single value (`None` when absent). -/
def catalogProbe (db : DB) (tname : String) : Option String :=
  match lookupTable db tname with
  | some _ => some tname
  | none => none

/-- `Model.__method__create_table_if_necessary`: probes the catalog and
branches on the truthiness of the fetched scalar; creates only when
the probe came back falsy. -/
def createTableIfNecessary (cfg : Config) (db : DB) (tname : String)
    (fields : List (String × String)) : Except String DB :=
  if optStrTruthy (catalogProbe db tname) then .ok db
  else dbCreateTable cfg db tname fields

/-- Largest rowid present, 0 on an empty table; SQLite hands out
`maxRowId + 1` to the next INSERT. -/
def maxRowId (rows : List (Int × List Value)) : Int :=
  rows.foldl (fun a r => max a r.1) 0

/-- `SELECT {id} FROM {t} ORDER BY {id} DESC LIMIT 1` fetched as a
single value: `none` on an empty table, else the maximum rowid. -/
def maxIdFetch (rows : List (Int × List Value)) : Option Int :=
  match rows.map (·.1) with
  | [] => none
  | x :: xs => some (xs.foldl max x)

/-- Value of column `c` in a row stored under columns `tcols` (the
same association lookup as the attribute store). -/
def rowValueAt (tcols : List String) (rvals : List Value) (c : String) :
    Value :=
  (getAttrRaw (tcols.zip rvals) c).getD none

/-- `INSERT INTO t (cols) VALUES (…)` followed by
`SELECT last_insert_rowid()`: appends a fresh row (columns not listed
default to NULL) and returns the assigned rowid. -/
def dbInsert (db : DB) (tname : String) (cols : List String)
    (vals : List Value) : Except String (DB × Int) :=
  match lookupTable db tname with
  | none => .error ("no such table: " ++ tname)
  | some t =>
    if cols.length ≠ vals.length then
      .error "values do not match columns"
    else if !(cols.all t.cols.contains) then
      .error "no such column"
    else
      let newId := maxRowId t.rows + 1
      let row := t.cols.map (rowValueAt cols vals)
      let t' : Table := ⟨t.cols, t.rows ++ [(newId, row)]⟩
      .ok (⟨db.tables.map (fun p => if p.1 = tname then (tname, t') else p)⟩,
           newId)

/-- `SELECT cols FROM t WHERE {id} = k` fetched as one record: the
first matching row, projected to the requested columns. -/
def dbSelectById (db : DB) (tname : String) (cols : List String)
    (k : Int) : Except String (Option (List Value)) :=
  match lookupTable db tname with
  | none => .error ("no such table: " ++ tname)
  | some t =>
    if !(cols.all t.cols.contains) then
      .error "no such column"
    else
      .ok ((t.rows.find? (fun r => r.1 = k)).map
        (fun r => cols.map (rowValueAt t.cols r.2)))

/-- `UPDATE t SET c1=?, … WHERE {id} = k`: rewrites the listed columns
of every matching row from the bound values. -/
def dbUpdate (db : DB) (tname : String) (cols : List String)
    (vals : List Value) (k : Int) : Except String DB :=
  match lookupTable db tname with
  | none => .error ("no such table: " ++ tname)
  | some t =>
    if !(cols.all t.cols.contains) then
      .error "no such column"
    else
      let assign := fun (c : String) (old : Value) =>
        match (cols.zip vals).find? (fun p => p.1 = c) with
        | some p => p.2
        | none => old
      let t' : Table :=
        ⟨t.cols,
         t.rows.map (fun r =>
           if r.1 = k then
             (r.1, (t.cols.zip r.2).map (fun p => assign p.1 p.2))
           else r)⟩
      .ok ⟨db.tables.map (fun p => if p.1 = tname then (tname, t') else p)⟩

/-- `DELETE FROM t WHERE {id}={…}` with `self.__id` interpolated into
the statement text.  An integer id becomes an integer literal; a `None`
id becomes the bare token `None`, which the backend resolves as a
column reference of the surrounding query and rejects
(`no such column: None`) — it is not a well-formed DELETE and matches
nothing. -/
def dbDelete (db : DB) (tname : String) (idv : Option Int) :
    Except String DB :=
  match lookupTable db tname with
  | none => .error ("no such table: " ++ tname)
  | some t =>
    match idv with
    | none => .error "no such column: None"
    | some k =>
      .ok ⟨db.tables.map (fun p =>
        if p.1 = tname then
          (tname, ⟨t.cols, t.rows.filter (fun r => !(r.1 = k))⟩)
        else p)⟩

/-- A normalization hook (`__normalize__*` method): a zero-argument
mutation of the instance; `some e` in the second component is an
exception escaping the hook (any mutations done before the raise are
kept in the first). -/
abbrev Hook := ModelInst → ModelInst × Option String

/-- `Model.__method__normalize`: runs every collected hook in order,
each in a `try`; an exception is logged (collected here in order) and
never re-raised, so the remaining hooks still run. -/
def methodNormalize (hooks : List Hook) (m : ModelInst) :
    ModelInst × List String :=
  match hooks with
  | [] => (m, [])
  | h :: hs =>
    match h m with
    | (m', none) => methodNormalize hs m'
    | (m', some e) =>
      let rest := methodNormalize hs m'
      (rest.1, e :: rest.2)

/-- `Model.__method__populate_model_fields`.  `pkArg = none` is the
`self.ID_KEYWORD not in kwargs` branch: every declared field is
`setattr` from `kwargs.get(field_name)` (defaulting to `None`).
Otherwise one record is fetched
(`SELECT cols FROM t WHERE {id}={pk}`); no record raises `ValueError`,
else `self.__id` is set to the identifier and every column value is
`setattr` from `dict(zip(columns, record))` in declared order. -/
def populateModelFields (cfg : Config) (db : DB) (tname : String)
    (pkArg : Option Int) (kwargs : List (String × Value))
    (m : ModelInst) : Except String ModelInst :=
  match pkArg with
  | none =>
    .ok { m with
          attrs := (columnsOf m.fields).foldl
            (fun a c =>
              setAttr a c
                (((kwargs.find? (fun p => p.1 = c)).map (·.2)).getD none))
            m.attrs }
  | some k =>
    match dbSelectById db tname (columnsOf m.fields) k with
    | .error e => .error e
    | .ok none =>
      .error ("No " ++ m.name ++ " record found with " ++ cfg.idField ++
              " = " ++ toString k)
    | .ok (some record) =>
      .ok { m with
            id := some k,
            attrs := ((columnsOf m.fields).zip record).foldl
              (fun a cv => setAttr a cv.1 cv.2) m.attrs }

/-- `Model.__init__` up to (and excluding) normalization: validate that
`FIELDS` is non-empty, connect, ensure the table exists, populate the
fields.  The backing store is threaded; failures surface as the raised
exception's message. -/
def constructCore (cfg : Config) (name : String)
    (fields : List (String × String)) (pkArg : Option Int)
    (kwargs : List (String × Value)) (db : DB) :
    Except String (DB × ModelInst) :=
  if fields.isEmpty then
    .error "Inheriting class must provide the FIELDS structure!"
  else
    match createTableIfNecessary cfg db (tableNameOf name) fields with
    | .error e => .error e
    | .ok db₁ =>
      match populateModelFields cfg db₁ (tableNameOf name) pkArg kwargs
          ⟨name, fields, none, []⟩ with
      | .error e => .error e
      | .ok m => .ok (db₁, m)

/-- `Model.__init__` in full: after the fields are populated the
collected hooks run once; their log of caught exceptions is returned
alongside (`methodNormalize` never raises). -/
def construct (cfg : Config) (name : String)
    (fields : List (String × String)) (hooks : List Hook)
    (pkArg : Option Int) (kwargs : List (String × Value)) (db : DB) :
    Except String (DB × ModelInst × List String) :=
  (constructCore cfg name fields pkArg kwargs db).map
    (fun r =>
      let n := methodNormalize hooks r.2
      (r.1, n.1, n.2))

/-- Which statement `save()` ended up executing. -/
inductive SaveAction where
  | update (tname : String) (cols : List String) (vals : List Value)
      (idv : Int)
  | insert (tname : String) (cols : List String) (vals : List Value)
  deriving Repr, DecidableEq

/-- `Model.save`: on a truthy `self.__id` runs `__method__update`
(UPDATE of every declared column from the current in-memory values
WHERE the id matches) and returns; otherwise INSERTs all declared
columns and assigns `self.__id` from `last_insert_rowid()`. -/
def modelSave (db : DB) (m : ModelInst) :
    Except String (DB × ModelInst × SaveAction) :=
  let tname := tableNameOf m.name
  if intTruthy m.id then
    match dbUpdate db tname (columnsOf m.fields) (propertyValues m)
        (m.id.getD 0) with
    | .error e => .error e
    | .ok db₁ =>
      .ok (db₁, m,
           .update tname (columnsOf m.fields) (propertyValues m)
             (m.id.getD 0))
  else
    match dbInsert db tname (columnsOf m.fields) (propertyValues m) with
    | .error e => .error e
    | .ok r =>
      .ok (r.1, { m with id := some r.2 },
           .insert tname (columnsOf m.fields) (propertyValues m))

/-- `Model.delete`: executes
`DELETE FROM t WHERE {id}={self.__id}` with the id interpolated into
the statement text (no presence check in the code). -/
def modelDelete (db : DB) (m : ModelInst) : Except String DB :=
  dbDelete db (tableNameOf m.name) m.id

/-- `ModelCollection.get_the_most_recent`: constructs a template (a
plain no-kwargs construction, which also ensures the table), fetches
the maximum rowid, returns `None` when that scalar is falsy, and
otherwise constructs the model with `pk=latest_id`. -/
def getTheMostRecent (cfg : Config) (name : String)
    (fields : List (String × String)) (hooks : List Hook) (db : DB) :
    Except String (DB × Option ModelInst) :=
  match construct cfg name fields hooks none [] db with
  | .error e => .error e
  | .ok r =>
    match lookupTable r.1 (tableNameOf name) with
    | none => .error ("no such table: " ++ tableNameOf name)
    | some t =>
      let latest := maxIdFetch t.rows
      if !intTruthy latest then
        .ok (r.1, none)
      else
        match construct cfg name fields hooks (some (latest.getD 0)) []
            r.1 with
        | .error e => .error e
        | .ok r₁ => .ok (r₁.1, some r₁.2.1)

/-- The instance produced by construction without an identifier: every
declared field `setattr` from `kwargs.get(field_name)`, id absent. -/
def newInstance (name : String) (fields : List (String × String))
    (kwargs : List (String × Value)) : ModelInst :=
  ⟨name, fields, none,
   (columnsOf fields).foldl
     (fun a c =>
       setAttr a c
         (((kwargs.find? (fun p => p.1 = c)).map (·.2)).getD none)) []⟩

/-- The instance produced by a successful load-by-id, before
normalization: id assigned, every column `setattr` from the fetched
record in declared order. -/
def loadedInstance (name : String) (fields : List (String × String))
    (k : Int) (record : List Value) : ModelInst :=
  ⟨name, fields, some k,
   ((columnsOf fields).zip record).foldl
     (fun a cv => setAttr a cv.1 cv.2) []⟩

/-! ## A concrete scenario (used by the witnesses)

The spec's running example: entity type `Note` with fields
`[("title","string"), ("created","date")]`, id column `id`. -/

/-- The example configuration: id column named `id`. -/
def cfgEx : Config := ⟨"id"⟩

/-- The example `FIELDS` declaration. -/
def noteFields : List (String × String) :=
  [("title", "string"), ("created", "date")]

/-- An example table holding one `Note` row with id 1. -/
def noteT : Table :=
  ⟨["title", "created"], [(1, [some "a", some "2024-01-01"])]⟩

/-- An example store holding `noteT` under the derived name. -/
def noteDB : DB := ⟨[("tbl_notes", noteT)]⟩

/-- An example loaded `Note` instance with id 1. -/
def noteInst : ModelInst :=
  ⟨"Note", noteFields, some 1,
   [("created", some "2024-01-01"), ("title", some "a")]⟩

/-- A table whose single row has rowid 0 (SQLite permits an explicit
rowid of 0). -/
def zeroT : Table := ⟨["title", "created"], [(0, [some "z", none])]⟩

/-- A store holding `zeroT` under the derived `Note` table name. -/
def zeroDB : DB := ⟨[("tbl_notes", zeroT)]⟩

/-- A `Note` instance whose surrogate id is 0. -/
def zeroInst : ModelInst :=
  ⟨"Note", noteFields, some 0, [("title", some "q"), ("created", none)]⟩

/-- A `Note` table holding rows with ids 1, 2 and 3. -/
def threeT : Table :=
  ⟨["title", "created"],
   [(1, [some "a", none]), (2, [some "b", none]), (3, [some "c", none])]⟩

/-- A store holding `threeT` under the derived `Note` table name. -/
def threeDB : DB := ⟨[("tbl_notes", threeT)]⟩

/-! ## Supporting lemmas about the embedding -/

lemma tableNameOf_ne_empty (name : String) : tableNameOf name ≠ "" := by
  intro h
  have hlen := congrArg String.length h
  simp only [tableNameOf] at hlen
  rw [String.length_append, String.length_append] at hlen
  simp at hlen
  exact absurd hlen.1.1 (by decide)

lemma optStrTruthy_tableNameOf (name : String) :
    optStrTruthy (some (tableNameOf name)) = true := by
  simp [optStrTruthy, tableNameOf_ne_empty]

/-- Folding `setattr` over a list of bindings prepends them reversed. -/
lemma foldl_setAttr_eq (l : List (String × Value))
    (a₀ : List (String × Value)) :
    l.foldl (fun a p => setAttr a p.1 p.2) a₀ = l.reverse ++ a₀ := by
  induction l generalizing a₀ with
  | nil => simp
  | cons x xs ih =>
    simp [List.foldl_cons, setAttr, ih, List.reverse_cons,
      List.append_assoc]

/-- Association lookup over `l ++ rest` finds `(c, v)` when every
binding of the key `c` inside `l` carries the value `v` and the key
does occur in `l`. -/
lemma getAttrRaw_append_of_key (l rest : List (String × Value))
    (c : String) (v : Value)
    (hall : ∀ p ∈ l, p.1 = c → p.2 = v)
    (hex : c ∈ l.map Prod.fst) :
    getAttrRaw (l ++ rest) c = some v := by
  induction l with
  | nil => simp at hex
  | cons x xs ih =>
    by_cases hx : x.1 = c
    · have hv : x.2 = v := hall x (List.mem_cons_self x xs) hx
      simp [getAttrRaw, List.find?_cons, hx, hv]
    · have hex' : c ∈ xs.map Prod.fst := by
        rw [List.map_cons, List.mem_cons] at hex
        rcases hex with h | h
        · exact absurd h.symm hx
        · exact h
      have hall' : ∀ p ∈ xs, p.1 = c → p.2 = v := fun p hp =>
        hall p (List.mem_cons_of_mem x hp)
      simpa [getAttrRaw, List.find?_cons, hx] using ih hall' hex'

/-- Lookup in reversed, `g`-generated bindings: the value is a function
of the key, so no distinctness is needed. -/
lemma getAttrRaw_pairs (cols : List String) (g : String → Value)
    (rest : List (String × Value)) (c : String) (hc : c ∈ cols) :
    getAttrRaw ((cols.map (fun x => (x, g x))).reverse ++ rest) c
      = some (g c) := by
  apply getAttrRaw_append_of_key
  · intro p hp hkey
    rcases List.mem_reverse.mp hp with hp'
    rcases List.mem_map.mp hp' with ⟨x, _, rfl⟩
    simp only at hkey
    rw [hkey]
  · rw [List.map_reverse, List.mem_reverse, List.map_map]
    simpa using hc

/-- `rowValueAt` over a `g`-generated row reads back `g`. -/
lemma rowValueAt_map (cols : List String) (g : String → Value)
    (c : String) (hc : c ∈ cols) :
    rowValueAt cols (cols.map g) c = g c := by
  have hz : cols.zip (cols.map g) = cols.map (fun x => (x, g x)) := by
    have := List.zip_map' (id : String → String) g cols
    simpa using this
  have h := getAttrRaw_append_of_key (cols.map (fun x => (x, g x))) []
    c (g c) ?_ ?_
  · rw [List.append_nil] at h
    rw [rowValueAt, hz, h]
    rfl
  · intro p hp hkey
    rcases List.mem_map.mp hp with ⟨x, _, rfl⟩
    simp only at hkey
    rw [hkey]
  · rw [List.map_map]
    simpa using hc

lemma propertyValues_eq_map (m : ModelInst) :
    propertyValues m = (columnsOf m.fields).map (fun c => getAttr m c) := by
  simp [propertyValues, columnsOf, List.map_map, Function.comp]

lemma foldl_max_init_le (l : List Int) (a : Int) : a ≤ l.foldl max a := by
  induction l generalizing a with
  | nil => exact le_refl a
  | cons x xs ih => exact le_trans (le_max_left a x) (ih (max a x))

lemma le_foldl_max (l : List Int) (a x : Int) (h : x ∈ l) :
    x ≤ l.foldl max a := by
  induction l generalizing a with
  | nil => cases h
  | cons y ys ih =>
    rcases List.mem_cons.mp h with h' | h'
    · subst h'
      exact le_trans (le_max_right a x) (foldl_max_init_le ys (max a x))
    · exact ih (max a y) h' 

lemma foldl_max_attained (l : List Int) (a : Int) :
    l.foldl max a = a ∨ l.foldl max a ∈ l := by
  induction l generalizing a with
  | nil => left; rfl
  | cons x xs ih =>
    rw [List.foldl_cons]
    rcases ih (max a x) with h | h
    · rw [h]
      rcases max_choice a x with hm | hm
      · left; exact hm
      · right; rw [hm]; exact List.mem_cons_self x xs
    · right; exact List.mem_cons_of_mem x h

lemma maxRowId_eq (rows : List (Int × List Value)) :
    maxRowId rows = (rows.map (·.1)).foldl max 0 := by
  rw [maxRowId, List.foldl_map]

lemma le_maxRowId (rows : List (Int × List Value)) (r : Int × List Value)
    (hr : r ∈ rows) : r.1 ≤ maxRowId rows := by
  rw [maxRowId_eq]
  exact le_foldl_max _ 0 r.1 (List.mem_map_of_mem _ hr)

lemma maxIdFetch_spec (rows : List (Int × List Value)) (K : Int)
    (h : maxIdFetch rows = some K) :
    K ∈ rows.map (·.1) ∧ ∀ r ∈ rows, r.1 ≤ K := by
  rw [maxIdFetch] at h
  rcases hm : rows.map (·.1) with _ | ⟨x, xs⟩ <;> rw [hm] at h
  · exact absurd h (by simp)
  · have hK : xs.foldl max x = K := by
      simpa using h
    constructor
    · rw [hm]
      rcases foldl_max_attained xs x with ha | ha
      · rw [hK] at ha
        rw [ha]
        exact List.mem_cons_self x xs
      · rw [hK] at ha
        exact List.mem_cons_of_mem x ha
    · intro r hr
      rw [← hK]
      have hmem : r.1 ∈ x :: xs := by
        rw [← hm]
        exact List.mem_map_of_mem _ hr
      rcases List.mem_cons.mp hmem with h1 | h1
      · rw [h1]
        exact foldl_max_init_le xs x
      · exact le_foldl_max xs x r.1 h1

lemma lookupTable_append_new (db : DB) (tname : String) (t : Table)
    (h : lookupTable db tname = none) :
    lookupTable ⟨db.tables ++ [(tname, t)]⟩ tname = some t := by
  rw [lookupTable] at h ⊢
  have hfind : db.tables.find? (fun p => p.1 = tname) = none := by
    cases hf : db.tables.find? (fun p => p.1 = tname) with
    | none => rfl
    | some p => rw [hf] at h; cases h
  rw [List.find?_append, hfind]
  simp [List.find?_cons]

lemma find?_map_replace (l : List (String × Table)) (tname : String)
    (t t' : Table)
    (h : (l.find? (fun p => p.1 = tname)).map (·.2) = some t) :
    ((l.map (fun p => if p.1 = tname then (tname, t') else p)).find?
        (fun p => p.1 = tname)).map (·.2) = some t' := by
  induction l with
  | nil => simp at h
  | cons p ps ih =>
    by_cases hp : p.1 = tname
    · simp [List.find?_cons, hp]
    · have hd : (decide (p.1 = tname)) = false := decide_eq_false hp
      simp only [List.find?_cons, hd] at h
      simp only [List.map_cons, if_neg hp, List.find?_cons, hd]
      exact ih h

lemma lookupTable_replace (db : DB) (tname : String) (t t' : Table)
    (h : lookupTable db tname = some t) :
    lookupTable
      ⟨db.tables.map (fun p => if p.1 = tname then (tname, t') else p)⟩
      tname = some t' := by
  rw [lookupTable] at h
  exact find?_map_replace db.tables tname t t' h

/-! ## Claim theorems -/

/-- C3: for every entity type, the derived table name is the type's
name lower-cased with a pluralizing suffix `s` appended unless the
lower-cased name already ends in `s`, prefixed by the fixed namespace
prefix `tbl_`; the result is memoized per instance, so a repeated call
through the cached slot returns the same string (and leaves the cache
unchanged). -/
theorem table_name_derivation_and_memoized (name : String) :
    (propertyTableName name none).1
      = "tbl_" ++ pyLower name
          ++ (if pyEndsWith (pyLower name) "s" then "" else "s")
    ∧ propertyTableName name (propertyTableName name none).2
        = propertyTableName name none := by
  constructor
  · rfl
  · show propertyTableName name (some (tableNameOf name))
      = (tableNameOf name, some (tableNameOf name))
    simp [propertyTableName, optStrTruthy_tableNameOf name]

/-- C8: the equality test returns true iff every declared field value
of the one entity matches the corresponding field value of the other;
the surrogate id does not participate (replacing either id leaves the
result unchanged). -/
theorem equality_is_fieldwise_and_ignores_id (self other : ModelInst)
    (x y : Option Int) :
    (modelEq self other = true ↔
      ∀ c ∈ columnsOf self.fields,
        getAttrRaw self.attrs c = getAttrRaw other.attrs c)
    ∧ modelEq { self with id := x } { other with id := y }
        = modelEq self other := by
  constructor
  · rw [modelEq, List.all_eq_true]
    constructor
    · intro h c hc
      exact eq_of_beq (h c hc)
    · intro h c hc
      exact beq_iff_eq.mpr (h c hc)
  · rfl

/-- C5: during construction each discovered normalization hook is
invoked exactly once, in order, immediately after fields are
populated: the final state is the left fold that applies every hook's
state effect once, even past failing hooks (a failing hook is logged
and skipped, the remaining hooks still run on the state it left
behind); and no hook failure surfaces to the caller — the constructor
errors exactly when its pre-normalization core errors, whatever the
hooks do. -/
theorem normalization_hooks_isolated (hooks : List Hook) (m : ModelInst)
    (cfg : Config) (name : String) (fields : List (String × String))
    (pkArg : Option Int) (kwargs : List (String × Value)) (db : DB) :
    (methodNormalize hooks m).1 = hooks.foldl (fun s h => (h s).1) m
    ∧ (∀ e, construct cfg name fields hooks pkArg kwargs db = .error e
        ↔ constructCore cfg name fields pkArg kwargs db = .error e)
    ∧ (∀ h : Hook, ∀ hs : List Hook, ∀ e : String,
        (h m).2 = some e →
        methodNormalize (h :: hs) m
          = ((methodNormalize hs (h m).1).1,
             e :: (methodNormalize hs (h m).1).2)) := by
  refine ⟨?_, ?_, ?_⟩
  · induction hooks generalizing m with
    | nil => rfl
    | cons h hs ih =>
      rw [List.foldl_cons]
      cases hm : h m with
      | mk m' err =>
        cases err with
        | none =>
          rw [methodNormalize, hm]
          simpa [hm] using ih m'
        | some e =>
          rw [methodNormalize, hm]
          simpa [hm] using ih m'
  · intro e
    cases hcc : constructCore cfg name fields pkArg kwargs db with
    | error e' => simp [construct, hcc, Except.map]
    | ok r => simp [construct, hcc, Except.map]
  · intro h hs e he
    rw [methodNormalize]
    cases hm : h m with
    | mk m' err =>
      rw [hm] at he
      simp only at he
      subst he
      rfl

/-- C6: ensuring the table exists is idempotent — once an ensure-table
call has succeeded, the table is found by the catalog probe and every
subsequent ensure-table call returns without error and without
executing CREATE or altering the store. -/
theorem ensure_table_idempotent (cfg : Config) (name : String)
    (fields : List (String × String)) (db db₁ : DB)
    (h : createTableIfNecessary cfg db (tableNameOf name) fields
          = .ok db₁) :
    createTableIfNecessary cfg db₁ (tableNameOf name) fields = .ok db₁
    ∧ catalogProbe db₁ (tableNameOf name) = some (tableNameOf name) := by
  have hprobe : catalogProbe db₁ (tableNameOf name)
      = some (tableNameOf name) := by
    rw [createTableIfNecessary] at h
    cases hlk : lookupTable db (tableNameOf name) with
    | some t =>
      have : db₁ = db := by
        rw [catalogProbe, hlk, optStrTruthy_tableNameOf] at h
        simpa using h.symm
      subst this
      rw [catalogProbe, hlk]
    | none =>
      rw [catalogProbe, hlk] at h
      simp only [optStrTruthy, if_neg] at h
      rw [dbCreateTable] at h
      cases hmap : fields.mapM (fun f => getDatabaseFieldType f.2) with
      | error e => rw [hmap] at h; cases h
      | ok tys =>
        rw [hmap, hlk] at h
        by_cases hnd : (cfg.idField :: columnsOf fields).Nodup
        · rw [if_pos hnd] at h
          have hdb : db₁ = ⟨db.tables ++
              [(tableNameOf name, ⟨columnsOf fields, []⟩)]⟩ := by
            simpa using h.symm
          subst hdb
          rw [catalogProbe, lookupTable_append_new db _ _ hlk]
        · rw [if_neg hnd] at h
          cases h
  refine ⟨?_, hprobe⟩
  rw [createTableIfNecessary, hprobe, optStrTruthy_tableNameOf]
  rfl

/-- C9: `delete()` requires the surrogate id to be present — with an
id present it executes a DELETE that removes exactly the rows whose id
matches, while without an id the interpolated statement is not a
well-formed DELETE and fails (the backend rejects the `None` token as
an unknown column reference) instead of silently matching nothing. -/
theorem delete_requires_id (db : DB) (t : Table) (m : ModelInst)
    (ht : lookupTable db (tableNameOf m.name) = some t) :
    (∀ k, m.id = some k →
      ∃ db₁ t₁, modelDelete db m = .ok db₁
        ∧ lookupTable db₁ (tableNameOf m.name) = some t₁
        ∧ t₁.rows = t.rows.filter (fun r => !(r.1 = k)))
    ∧ (m.id = none → modelDelete db m = .error "no such column: None") := by
  constructor
  · intro k hk
    have hdel : modelDelete db m
        = .ok ⟨db.tables.map (fun p =>
            if p.1 = tableNameOf m.name then
              (tableNameOf m.name,
               ⟨t.cols, t.rows.filter (fun r => !(r.1 = k))⟩)
            else p)⟩ := by
      rw [modelDelete, dbDelete, ht, hk]
    exact ⟨_, ⟨t.cols, t.rows.filter (fun r => !(r.1 = k))⟩, hdel,
      lookupTable_replace db (tableNameOf m.name) t
        ⟨t.cols, t.rows.filter (fun r => !(r.1 = k))⟩ ht, rfl⟩
  · intro hk
    rw [modelDelete, dbDelete, ht, hk]

/-- C9 witness. -/
theorem delete_requires_id_witness :
    lookupTable noteDB (tableNameOf noteInst.name) = some noteT
    ∧ ((∀ k, noteInst.id = some k →
        ∃ db₁ t₁, modelDelete noteDB noteInst = .ok db₁
          ∧ lookupTable db₁ (tableNameOf noteInst.name) = some t₁
          ∧ t₁.rows = noteT.rows.filter (fun r => !(r.1 = k)))
      ∧ (noteInst.id = none →
          modelDelete noteDB noteInst = .error "no such column: None")) :=
  ⟨by decide, delete_requires_id noteDB noteT noteInst (by decide)⟩

lemma all_contains_self (l : List String) : l.all l.contains = true := by
  rw [List.all_eq_true]
  intro c hc
  exact List.elem_eq_true_of_mem hc

lemma getAttrRaw_newInstance (name : String)
    (fields : List (String × String)) (kwargs : List (String × Value))
    (c : String) (hc : c ∈ columnsOf fields) :
    getAttrRaw (newInstance name fields kwargs).attrs c
      = some (((kwargs.find? (fun p => p.1 = c)).map (·.2)).getD none) := by
  rw [newInstance]
  have hfold :
      (columnsOf fields).foldl
        (fun a c =>
          setAttr a c
            (((kwargs.find? (fun p => p.1 = c)).map (·.2)).getD none)) []
      = ((columnsOf fields).map (fun c => (c,
          ((kwargs.find? (fun p => p.1 = c)).map (·.2)).getD none))).reverse
        ++ [] := by
    rw [← List.foldl_map
      (fun c => (c, ((kwargs.find? (fun p => p.1 = c)).map (·.2)).getD none))
      (fun a (p : String × Value) => setAttr a p.1 p.2)]
    exact foldl_setAttr_eq _ []
  simp only
  rw [hfold]
  exact getAttrRaw_pairs (columnsOf fields) _ [] c hc

lemma getAttrRaw_loadedInstance (name : String)
    (fields : List (String × String)) (k : Int) (g : String → Value)
    (c : String) (hc : c ∈ columnsOf fields) :
    getAttrRaw
      (loadedInstance name fields k ((columnsOf fields).map g)).attrs c
      = some (g c) := by
  rw [loadedInstance]
  have hz : (columnsOf fields).zip ((columnsOf fields).map g)
      = (columnsOf fields).map (fun x => (x, g x)) := by
    have := List.zip_map' (id : String → String) g (columnsOf fields)
    simpa using this
  simp only
  rw [hz]
  rw [foldl_setAttr_eq _ []]
  exact getAttrRaw_pairs (columnsOf fields) g [] c hc

lemma propertyValues_loadedInstance (name : String)
    (fields : List (String × String)) (k : Int) (g : String → Value) :
    propertyValues (loadedInstance name fields k
        ((columnsOf fields).map g))
      = (columnsOf fields).map g := by
  rw [propertyValues_eq_map]
  apply List.map_congr_left
  intro c hc
  rw [getAttr, getAttrRaw_loadedInstance name fields k g c hc]
  rfl

lemma isEmpty_false_of_ne_nil {α : Type} (l : List α) (h : l ≠ []) :
    l.isEmpty = false := by
  cases l with
  | nil => exact absurd rfl h
  | cons x xs => rfl

lemma createTableIfNecessary_noop (cfg : Config) (db : DB)
    (name : String) (fields : List (String × String)) (t : Table)
    (ht : lookupTable db (tableNameOf name) = some t) :
    createTableIfNecessary cfg db (tableNameOf name) fields = .ok db := by
  simp [createTableIfNecessary, catalogProbe, ht, optStrTruthy_tableNameOf]

lemma constructCore_new (cfg : Config) (name : String)
    (fields : List (String × String)) (kwargs : List (String × Value))
    (db : DB) (t : Table)
    (hne : fields ≠ [])
    (ht : lookupTable db (tableNameOf name) = some t) :
    constructCore cfg name fields none kwargs db
      = .ok (db, newInstance name fields kwargs) := by
  rw [constructCore, isEmpty_false_of_ne_nil fields hne]
  simp only [Bool.false_eq_true, if_false,
    createTableIfNecessary_noop cfg db name fields t ht,
    populateModelFields]
  rfl

lemma dbSelectById_eval (db : DB) (tname : String) (t : Table)
    (k : Int) (cols : List String)
    (ht : lookupTable db tname = some t)
    (hcols : t.cols = cols) :
    dbSelectById db tname cols k
      = .ok ((t.rows.find? (fun r => r.1 = k)).map
          (fun r => cols.map (rowValueAt t.cols r.2))) := by
  unfold dbSelectById
  rw [ht]
  simp only [hcols, all_contains_self, Bool.not_true, Bool.false_eq_true,
    if_false]

lemma constructCore_byId_missing (cfg : Config) (name : String)
    (fields : List (String × String)) (kwargs : List (String × Value))
    (db : DB) (t : Table) (k : Int)
    (hne : fields ≠ [])
    (ht : lookupTable db (tableNameOf name) = some t)
    (hcols : t.cols = columnsOf fields)
    (hfind : t.rows.find? (fun r => r.1 = k) = none) :
    constructCore cfg name fields (some k) kwargs db
      = .error ("No " ++ name ++ " record found with " ++ cfg.idField
          ++ " = " ++ toString k) := by
  rw [constructCore, isEmpty_false_of_ne_nil fields hne]
  simp only [Bool.false_eq_true, if_false,
    createTableIfNecessary_noop cfg db name fields t ht,
    populateModelFields,
    dbSelectById_eval db (tableNameOf name) t k (columnsOf fields) ht hcols,
    hfind, Option.map_none']

lemma constructCore_byId_found (cfg : Config) (name : String)
    (fields : List (String × String)) (kwargs : List (String × Value))
    (db : DB) (t : Table) (k : Int) (r : Int × List Value)
    (hne : fields ≠ [])
    (ht : lookupTable db (tableNameOf name) = some t)
    (hcols : t.cols = columnsOf fields)
    (hfind : t.rows.find? (fun rw => rw.1 = k) = some r) :
    constructCore cfg name fields (some k) kwargs db
      = .ok (db, loadedInstance name fields k
          ((columnsOf fields).map (rowValueAt t.cols r.2))) := by
  rw [constructCore, isEmpty_false_of_ne_nil fields hne]
  simp only [Bool.false_eq_true, if_false,
    createTableIfNecessary_noop cfg db name fields t ht,
    populateModelFields,
    dbSelectById_eval db (tableNameOf name) t k (columnsOf fields) ht hcols,
    hfind, Option.map_some']
  rfl

lemma length_columnsOf (fields : List (String × String)) :
    (columnsOf fields).length = fields.length := by
  rw [columnsOf, List.length_map]

lemma length_propertyValues (m : ModelInst) :
    (propertyValues m).length = m.fields.length := by
  rw [propertyValues, List.length_map]

lemma dbInsert_eval (db : DB) (tname : String) (t : Table)
    (cols : List String) (vals : List Value)
    (ht : lookupTable db tname = some t)
    (hcols : t.cols = cols)
    (hlen : cols.length = vals.length) :
    dbInsert db tname cols vals
      = .ok (⟨db.tables.map (fun p =>
            if p.1 = tname then
              (tname, ⟨t.cols, t.rows ++
                [(maxRowId t.rows + 1, t.cols.map (rowValueAt cols vals))]⟩)
            else p)⟩,
          maxRowId t.rows + 1) := by
  unfold dbInsert
  rw [ht]
  simp only [hcols, all_contains_self, Bool.not_true, Bool.false_eq_true,
    if_false]
  rw [if_neg (fun hne => hne hlen)]

lemma construct_of_core_ok (cfg : Config) (name : String)
    (fields : List (String × String)) (hooks : List Hook)
    (pkArg : Option Int) (kwargs : List (String × Value)) (db db₁ : DB)
    (m : ModelInst)
    (h : constructCore cfg name fields pkArg kwargs db = .ok (db₁, m)) :
    construct cfg name fields hooks pkArg kwargs db
      = .ok (db₁, (methodNormalize hooks m).1,
          (methodNormalize hooks m).2) := by
  rw [construct, h]
  rfl

/-- C10: presence of the surrogate id is decided by truthiness, so an
entity whose id equals 0 is treated as having no id: save() on such an
entity takes the INSERT path, assigning a fresh id, rather than an
UPDATE; and get-most-recent returns absent when the maximum id fetched
is 0 even though a row exists. -/
theorem id_zero_treated_as_absent :
    (∀ (db : DB) (t : Table) (m : ModelInst),
      m.id = some 0 →
      lookupTable db (tableNameOf m.name) = some t →
      t.cols = columnsOf m.fields →
      ∃ db₁,
        modelSave db m
          = .ok (db₁, { m with id := some (maxRowId t.rows + 1) },
              .insert (tableNameOf m.name) (columnsOf m.fields)
                (propertyValues m)))
    ∧ (∀ (cfg : Config) (name : String)
        (fields : List (String × String)) (hooks : List Hook)
        (db : DB) (t : Table),
        fields ≠ [] →
        lookupTable db (tableNameOf name) = some t →
        maxIdFetch t.rows = some 0 →
        t.rows ≠ []
        ∧ getTheMostRecent cfg name fields hooks db = .ok (db, none)) := by
  constructor
  · intro db t m hm ht hcols
    refine ⟨⟨db.tables.map (fun p =>
        if p.1 = tableNameOf m.name then
          (tableNameOf m.name, ⟨t.cols, t.rows ++
            [(maxRowId t.rows + 1,
              t.cols.map
                (rowValueAt (columnsOf m.fields) (propertyValues m)))]⟩)
        else p)⟩, ?_⟩
    rw [modelSave]
    simp only [hm]
    rw [if_neg (by simp [intTruthy])]
    rw [dbInsert_eval db (tableNameOf m.name) t (columnsOf m.fields)
      (propertyValues m) ht hcols
      (by rw [length_columnsOf, length_propertyValues])]
  · intro cfg name fields hooks db t hne ht hmax
    constructor
    · intro hrows
      rw [hrows] at hmax
      cases hmax
    · rw [getTheMostRecent,
        construct_of_core_ok cfg name fields hooks none [] db db
          (newInstance name fields [])
          (constructCore_new cfg name fields [] db t hne ht)]
      simp only [ht, hmax]
      rfl

/-- C10 witness. -/
theorem id_zero_treated_as_absent_witness :
    (zeroInst.id = some 0
     ∧ lookupTable zeroDB (tableNameOf zeroInst.name) = some zeroT
     ∧ zeroT.cols = columnsOf zeroInst.fields
     ∧ ∃ db₁,
        modelSave zeroDB zeroInst
          = .ok (db₁, { zeroInst with id := some (maxRowId zeroT.rows + 1) },
              .insert (tableNameOf zeroInst.name)
                (columnsOf zeroInst.fields) (propertyValues zeroInst)))
    ∧ (noteFields ≠ ([] : List (String × String))
       ∧ lookupTable zeroDB (tableNameOf "Note") = some zeroT
       ∧ maxIdFetch zeroT.rows = some 0
       ∧ (zeroT.rows ≠ []
          ∧ getTheMostRecent cfgEx "Note" noteFields [] zeroDB
              = .ok (zeroDB, none))) :=
  ⟨⟨by decide, by decide, by decide,
    id_zero_treated_as_absent.1 zeroDB zeroT zeroInst
      (by decide) (by decide) (by decide)⟩,
   ⟨by decide, by decide, by decide,
    id_zero_treated_as_absent.2 cfgEx "Note" noteFields [] zeroDB zeroT
      (by decide) (by decide) (by decide)⟩⟩

/-- C6 witness. -/
theorem ensure_table_idempotent_witness :
    createTableIfNecessary cfgEx ⟨[]⟩ (tableNameOf "Note") noteFields
        = .ok ⟨[("tbl_notes", ⟨["title", "created"], []⟩)]⟩
    ∧ (createTableIfNecessary cfgEx
          ⟨[("tbl_notes", ⟨["title", "created"], []⟩)]⟩
          (tableNameOf "Note") noteFields
        = .ok ⟨[("tbl_notes", ⟨["title", "created"], []⟩)]⟩
      ∧ catalogProbe ⟨[("tbl_notes", ⟨["title", "created"], []⟩)]⟩
          (tableNameOf "Note") = some (tableNameOf "Note")) :=
  ⟨by rfl,
   ensure_table_idempotent cfgEx "Note" noteFields ⟨[]⟩
     ⟨[("tbl_notes", ⟨["title", "created"], []⟩)]⟩ (by rfl)⟩

lemma find?_pairs_entry (cols : List String) (g : String → Value)
    (c : String) (hc : c ∈ cols) :
    (cols.map (fun x => (x, g x))).find? (fun q => q.1 = c)
      = some (c, g c) := by
  induction cols with
  | nil => cases hc
  | cons x xs ih =>
    by_cases hx : x = c
    · subst hx
      simp [List.find?_cons]
    · have hc' : c ∈ xs := by
        rcases List.mem_cons.mp hc with h | h
        · exact absurd h.symm hx
        · exact h
      have hd : (decide ((x, g x).1 = c)) = false := by
        simpa using hx
      simp only [List.map_cons, List.find?_cons, hd]
      exact ih hc'

lemma update_assign_row (cols : List String) (g : String → Value)
    (rvals : List Value) (hlen : cols.length ≤ rvals.length) :
    (cols.zip rvals).map (fun p =>
      match (cols.zip (cols.map g)).find? (fun q => q.1 = p.1) with
      | some q => q.2
      | none => p.2)
    = cols.map g := by
  have hz : cols.zip (cols.map g) = cols.map (fun x => (x, g x)) := by
    have := List.zip_map' (id : String → String) g cols
    simpa using this
  rw [hz]
  have hstep : ∀ p ∈ cols.zip rvals,
      (match (cols.map (fun x => (x, g x))).find? (fun q => q.1 = p.1) with
       | some q => q.2
       | none => p.2) = g p.1 := by
    intro p hp
    obtain ⟨a, b⟩ := p
    have hc : a ∈ cols := (List.of_mem_zip hp).1
    rw [find?_pairs_entry cols g a hc]
  rw [List.map_congr_left hstep]
  have hcomp : (cols.zip rvals).map (fun p => g p.1)
      = ((cols.zip rvals).map Prod.fst).map g := by
    rw [List.map_map]
    rfl
  rw [hcomp, List.map_fst_zip cols rvals hlen]

/-- C2: on an entity whose surrogate id is present (a nonzero integer,
as every id assigned by a successful save is), save() performs an
UPDATE that rewrites every declared field column from the current
in-memory values WHERE the id matches — the executed action is the
UPDATE (so no INSERT happens), the instance comes back unchanged (id
included), and in the store every row whose id matches carries exactly
the in-memory values afterwards, all other rows untouched. -/
theorem save_present_id_updates (db : DB) (t : Table) (m : ModelInst)
    (n : Int)
    (hm : m.id = some n) (hn : n ≠ 0)
    (ht : lookupTable db (tableNameOf m.name) = some t)
    (hcols : t.cols = columnsOf m.fields)
    (hlen : ∀ r ∈ t.rows, (columnsOf m.fields).length ≤ r.2.length) :
    ∃ db₁,
      modelSave db m
        = .ok (db₁, m,
            .update (tableNameOf m.name) (columnsOf m.fields)
              (propertyValues m) n)
      ∧ lookupTable db₁ (tableNameOf m.name)
          = some ⟨t.cols, t.rows.map (fun r =>
              if r.1 = n then (r.1, propertyValues m) else r)⟩ := by
  have hrows : t.rows.map (fun r =>
      if r.1 = n then
        ((r.1 : Int), ((columnsOf m.fields).zip r.2).map (fun p =>
          match ((columnsOf m.fields).zip (propertyValues m)).find?
              (fun q => q.1 = p.1) with
          | some q => q.2
          | none => p.2))
      else r)
      = t.rows.map (fun r =>
          if r.1 = n then (r.1, propertyValues m) else r) := by
    apply List.map_congr_left
    intro r hr
    by_cases hid : r.1 = n
    · rw [if_pos hid, if_pos hid]
      rw [propertyValues_eq_map m]
      rw [update_assign_row (columnsOf m.fields)
        (fun c => getAttr m c) r.2 (hlen r hr)]
    · rw [if_neg hid, if_neg hid]
  refine ⟨⟨db.tables.map (fun p =>
      if p.1 = tableNameOf m.name then
        (tableNameOf m.name, ⟨t.cols, t.rows.map (fun r =>
          if r.1 = n then (r.1, propertyValues m) else r)⟩)
      else p)⟩, ?_, ?_⟩
  · rw [modelSave]
    simp only [hm]
    rw [if_pos (by simp [intTruthy, hn])]
    unfold dbUpdate
    rw [ht]
    simp only [hcols, all_contains_self, Bool.not_true, Bool.false_eq_true,
      if_false, Option.getD_some]
    rw [hrows]
  · exact lookupTable_replace db (tableNameOf m.name) t _ ht

/-- C2 witness. -/
theorem save_present_id_updates_witness :
    noteInst.id = some 1 ∧ (1 : Int) ≠ 0
    ∧ lookupTable noteDB (tableNameOf noteInst.name) = some noteT
    ∧ noteT.cols = columnsOf noteInst.fields
    ∧ (∀ r ∈ noteT.rows, (columnsOf noteInst.fields).length ≤ r.2.length)
    ∧ ∃ db₁,
        modelSave noteDB noteInst
          = .ok (db₁, noteInst,
              .update (tableNameOf noteInst.name)
                (columnsOf noteInst.fields) (propertyValues noteInst) 1)
        ∧ lookupTable db₁ (tableNameOf noteInst.name)
            = some ⟨noteT.cols, noteT.rows.map (fun r =>
                if r.1 = 1 then (r.1, propertyValues noteInst) else r)⟩ :=
  ⟨by decide, by decide, by decide, by decide, by decide,
   save_present_id_updates noteDB noteT noteInst 1
     (by decide) (by decide) (by decide) (by decide) (by decide)⟩

lemma rowValueAt_cons (c : String) (v : Value) (cs : List String)
    (vs : List Value) (c' : String) :
    rowValueAt (c :: cs) (v :: vs) c'
      = if c = c' then v else rowValueAt cs vs c' := by
  by_cases h : c = c'
  · simp [rowValueAt, getAttrRaw, List.find?_cons, h]
  · simp [rowValueAt, getAttrRaw, List.find?_cons, h]

lemma map_rowValueAt_self (cols : List String) (rvals : List Value)
    (hnd : cols.Nodup) (hlen : rvals.length = cols.length) :
    cols.map (rowValueAt cols rvals) = rvals := by
  induction cols generalizing rvals with
  | nil =>
    have : rvals = [] := List.eq_nil_of_length_eq_zero hlen
    rw [this, List.map_nil]
  | cons c cs ih =>
    cases rvals with
    | nil => cases hlen
    | cons v vs =>
      have hnotin : c ∉ cs := (List.nodup_cons.mp hnd).1
      have hnd' : cs.Nodup := (List.nodup_cons.mp hnd).2
      have hlen' : vs.length = cs.length := by
        simpa using hlen
      rw [List.map_cons]
      rw [rowValueAt_cons c v cs vs c, if_pos rfl]
      have hcongr : cs.map (rowValueAt (c :: cs) (v :: vs))
          = cs.map (rowValueAt cs vs) := by
        apply List.map_congr_left
        intro c' hc'
        have hne' : ¬(c = c') := by
          intro hcc
          rw [hcc] at hnotin
          exact hnotin hc'
        rw [rowValueAt_cons c v cs vs c', if_neg hne']
      rw [hcongr, ih vs hnd' hlen']

/-- C4: construction with an identifier selects all declared field
columns WHERE the id equals the identifier; zero rows makes the
construction fail with the record-not-found error, which surfaces to
the caller whatever hooks the type declares; otherwise the instance's
id is set to the identifier and its field values, read in declared
order, are exactly the row's values. -/
theorem construct_by_id_loads_or_fails (cfg : Config) (name : String)
    (fields : List (String × String)) (hooks : List Hook)
    (kwargs : List (String × Value)) (db : DB) (t : Table) (k : Int)
    (hne : fields ≠ [])
    (ht : lookupTable db (tableNameOf name) = some t)
    (hcols : t.cols = columnsOf fields) :
    (t.rows.find? (fun r => r.1 = k) = none →
      construct cfg name fields hooks (some k) kwargs db
        = .error ("No " ++ name ++ " record found with " ++ cfg.idField
            ++ " = " ++ toString k))
    ∧ (∀ r, t.rows.find? (fun r₀ => r₀.1 = k) = some r →
        (columnsOf fields).Nodup →
        r.2.length = (columnsOf fields).length →
        ∃ mPop,
          constructCore cfg name fields (some k) kwargs db = .ok (db, mPop)
          ∧ mPop.id = some k
          ∧ propertyValues mPop = r.2
          ∧ construct cfg name fields hooks (some k) kwargs db
              = .ok (db, (methodNormalize hooks mPop).1,
                  (methodNormalize hooks mPop).2)) := by
  constructor
  · intro hfind
    rw [construct,
      constructCore_byId_missing cfg name fields kwargs db t k
        hne ht hcols hfind]
    rfl
  · intro r hfind hnd hrlen
    have hcore := constructCore_byId_found cfg name fields kwargs db t k r
      hne ht hcols hfind
    refine ⟨loadedInstance name fields k
      ((columnsOf fields).map (rowValueAt t.cols r.2)), hcore, rfl, ?_, ?_⟩
    · have hid : (columnsOf fields).map (rowValueAt t.cols r.2)
          = (columnsOf fields).map (rowValueAt (columnsOf fields) r.2) := by
        rw [hcols]
      rw [hid]
      rw [propertyValues_loadedInstance name fields k
        (rowValueAt (columnsOf fields) r.2)]
      exact map_rowValueAt_self (columnsOf fields) r.2 hnd hrlen
    · exact construct_of_core_ok cfg name fields hooks (some k) kwargs
        db db _ hcore

/-- C4 witness. -/
theorem construct_by_id_loads_or_fails_witness :
    noteFields ≠ ([] : List (String × String))
    ∧ lookupTable noteDB (tableNameOf "Note") = some noteT
    ∧ noteT.cols = columnsOf noteFields
    ∧ ((noteT.rows.find? (fun r => r.1 = 2) = none →
        construct cfgEx "Note" noteFields [] (some 2) [] noteDB
          = .error ("No " ++ "Note" ++ " record found with " ++ cfgEx.idField
              ++ " = " ++ toString (2 : Int)))
      ∧ (∀ r, noteT.rows.find? (fun r₀ => r₀.1 = 2) = some r →
          (columnsOf noteFields).Nodup →
          r.2.length = (columnsOf noteFields).length →
          ∃ mPop,
            constructCore cfgEx "Note" noteFields (some 2) [] noteDB
              = .ok (noteDB, mPop)
            ∧ mPop.id = some 2
            ∧ propertyValues mPop = r.2
            ∧ construct cfgEx "Note" noteFields [] (some 2) [] noteDB
                = .ok (noteDB, (methodNormalize [] mPop).1,
                    (methodNormalize [] mPop).2))) :=
  ⟨by decide, by decide, by decide,
   construct_by_id_loads_or_fails cfgEx "Note" noteFields [] [] noteDB
     noteT 2 (by decide) (by decide) (by decide)⟩

/-- C7: get-most-recent returns absent when the type's table contains
no rows; otherwise (for a nonzero maximum id, as every id assigned by
the mapper is) it returns the entity produced by the same load-by-id
construction path, normalization included, for the maximum surrogate
id present in the table. -/
theorem get_most_recent_returns_max_id (cfg : Config) (name : String)
    (fields : List (String × String)) (hooks : List Hook)
    (db : DB) (t : Table)
    (hne : fields ≠ [])
    (ht : lookupTable db (tableNameOf name) = some t)
    (hcols : t.cols = columnsOf fields) :
    (t.rows = [] →
      getTheMostRecent cfg name fields hooks db = .ok (db, none))
    ∧ (∀ K, maxIdFetch t.rows = some K → K ≠ 0 →
        K ∈ t.rows.map (·.1)
        ∧ (∀ r ∈ t.rows, r.1 ≤ K)
        ∧ ∃ m logs,
            construct cfg name fields hooks (some K) [] db
              = .ok (db, m, logs)
            ∧ getTheMostRecent cfg name fields hooks db
                = .ok (db, some m)) := by
  have hopen : getTheMostRecent cfg name fields hooks db
      = (match lookupTable db (tableNameOf name) with
        | none => .error ("no such table: " ++ tableNameOf name)
        | some t =>
          if !intTruthy (maxIdFetch t.rows) then
            .ok (db, none)
          else
            match construct cfg name fields hooks
                (some ((maxIdFetch t.rows).getD 0)) [] db with
            | .error e => .error e
            | .ok r₁ => .ok (r₁.1, some r₁.2.1)) := by
    rw [getTheMostRecent,
      construct_of_core_ok cfg name fields hooks none [] db db
        (newInstance name fields [])
        (constructCore_new cfg name fields [] db t hne ht)]
  constructor
  · intro hrows
    rw [hopen]
    simp only [ht]
    rw [hrows]
    rfl
  · intro K hmax hK
    obtain ⟨hKmem, hKbound⟩ := maxIdFetch_spec t.rows K hmax
    obtain ⟨r₀, hr₀mem, hr₀id⟩ := List.mem_map.mp hKmem
    have hsome : (t.rows.find? (fun r => r.1 = K)).isSome := by
      rw [List.find?_isSome]
      exact ⟨r₀, hr₀mem, by simp [hr₀id]⟩
    obtain ⟨r, hfind⟩ := Option.isSome_iff_exists.mp hsome
    have hcore := constructCore_byId_found cfg name fields [] db t K r
      hne ht hcols hfind
    have hload := construct_of_core_ok cfg name fields hooks (some K) []
      db db _ hcore
    refine ⟨hKmem, hKbound,
      (methodNormalize hooks (loadedInstance name fields K
        ((columnsOf fields).map (rowValueAt t.cols r.2)))).1,
      (methodNormalize hooks (loadedInstance name fields K
        ((columnsOf fields).map (rowValueAt t.cols r.2)))).2,
      hload, ?_⟩
    rw [hopen]
    simp only [ht]
    rw [hmax]
    rw [if_neg (by simp [intTruthy, hK])]
    simp only [Option.getD_some]
    rw [hload]

/-- C7 witness (rows with ids 1, 2, 3: the entity with id 3 comes back). -/
theorem get_most_recent_returns_max_id_witness :
    noteFields ≠ ([] : List (String × String))
    ∧ lookupTable threeDB (tableNameOf "Note") = some threeT
    ∧ threeT.cols = columnsOf noteFields
    ∧ maxIdFetch threeT.rows = some 3
    ∧ (3 : Int) ≠ 0
    ∧ ((3 : Int) ∈ threeT.rows.map (·.1)
      ∧ (∀ r ∈ threeT.rows, r.1 ≤ 3)
      ∧ ∃ m logs,
          construct cfgEx "Note" noteFields [] (some 3) [] threeDB
            = .ok (threeDB, m, logs)
          ∧ getTheMostRecent cfgEx "Note" noteFields [] threeDB
              = .ok (threeDB, some m)) :=
  ⟨by decide, by decide, by decide, by decide, by decide,
   (get_most_recent_returns_max_id cfgEx "Note" noteFields [] threeDB
     threeT (by decide) (by decide) (by decide)).2 3
     (by decide) (by decide)⟩

lemma mapM_fieldTypes_ok (fields : List (String × String))
    (htypes : ∀ f ∈ fields, f.2 = "string" ∨ f.2 = "date") :
    ∃ tys, fields.mapM (fun f => getDatabaseFieldType f.2)
      = .ok tys := by
  induction fields with
  | nil => exact ⟨[], rfl⟩
  | cons f fs ih =>
    obtain ⟨tys, htys⟩ :=
      ih (fun g hg => htypes g (List.mem_cons_of_mem f hg))
    have hstep : ∃ ty, getDatabaseFieldType f.2 = .ok ty := by
      rcases htypes f (List.mem_cons_self f fs) with h | h
      · refine ⟨"text", ?_⟩
        rw [h]
        rfl
      · refine ⟨"date", ?_⟩
        rw [h]
        rfl
    obtain ⟨ty, hty⟩ := hstep
    refine ⟨ty :: tys, ?_⟩
    rw [List.mapM_cons, hty, htys]
    rfl

lemma constructCore_new_create (cfg : Config) (name : String)
    (fields : List (String × String)) (kwargs : List (String × Value))
    (db : DB)
    (hne : fields ≠ [])
    (htypes : ∀ f ∈ fields, f.2 = "string" ∨ f.2 = "date")
    (hnd : (cfg.idField :: columnsOf fields).Nodup)
    (habs : lookupTable db (tableNameOf name) = none) :
    constructCore cfg name fields none kwargs db
      = .ok (⟨db.tables ++
            [(tableNameOf name, ⟨columnsOf fields, []⟩)]⟩,
          newInstance name fields kwargs) := by
  obtain ⟨tys, htys⟩ := mapM_fieldTypes_ok fields htypes
  have hcreate : createTableIfNecessary cfg db (tableNameOf name) fields
      = .ok ⟨db.tables ++ [(tableNameOf name, ⟨columnsOf fields, []⟩)]⟩ := by
    rw [createTableIfNecessary, catalogProbe, habs]
    rw [if_neg (by simp [optStrTruthy])]
    rw [dbCreateTable, htys, habs, if_pos hnd]
  rw [constructCore, isEmpty_false_of_ne_nil fields hne]
  simp only [Bool.false_eq_true, if_false, hcreate, populateModelFields]
  rfl

lemma find?_fresh_row (rows : List (Int × List Value)) (newId : Int)
    (row : List Value)
    (hfresh : ∀ r ∈ rows, r.1 ≠ newId) :
    (rows ++ [(newId, row)]).find? (fun r => r.1 = newId)
      = some (newId, row) := by
  rw [List.find?_append]
  have h1 : rows.find? (fun r => r.1 = newId) = none := by
    rw [List.find?_eq_none]
    intro r hr
    simp [hfresh r hr]
  rw [h1]
  simp [List.find?_cons]

lemma maxRowId_nonneg (rows : List (Int × List Value)) :
    0 ≤ maxRowId rows := by
  rw [maxRowId_eq]
  exact foldl_max_init_le _ 0

/-- C1: for every valid entity type descriptor (non-empty fields of
semantic type string/date, column names distinct from each other and
from the id column) and every assignment of field values,
constructing a new entity with those values and calling save() assigns
a surrogate id (present by the code's own truthiness test), and
constructing an entity by that id afterwards loads an entity whose
field values are identical to the saved instance's. -/
theorem new_save_load_roundtrip (cfg : Config) (name : String)
    (fields : List (String × String)) (kwargs : List (String × Value))
    (db : DB)
    (hne : fields ≠ [])
    (htypes : ∀ f ∈ fields, f.2 = "string" ∨ f.2 = "date")
    (hnd : (cfg.idField :: columnsOf fields).Nodup)
    (htab : lookupTable db (tableNameOf name) = none
      ∨ ∃ t, lookupTable db (tableNameOf name) = some t
          ∧ t.cols = columnsOf fields) :
    ∃ db₁ m db₂ m' newId m'',
      construct cfg name fields [] none kwargs db = .ok (db₁, m, [])
      ∧ modelSave db₁ m
          = .ok (db₂, m',
              .insert (tableNameOf name) (columnsOf fields)
                (propertyValues m))
      ∧ m' = { m with id := some newId }
      ∧ intTruthy m'.id = true
      ∧ construct cfg name fields [] (some newId) [] db₂
          = .ok (db₂, m'', [])
      ∧ ∀ c ∈ columnsOf fields, getAttr m'' c = getAttr m' c := by
  obtain ⟨db₁, t₁, hcore, ht₁, hcols₁⟩ :
      ∃ db₁ t₁,
        constructCore cfg name fields none kwargs db
          = .ok (db₁, newInstance name fields kwargs)
        ∧ lookupTable db₁ (tableNameOf name) = some t₁
        ∧ t₁.cols = columnsOf fields := by
    rcases htab with habs | ⟨t, ht, hcolst⟩
    · exact ⟨_, ⟨columnsOf fields, []⟩,
        constructCore_new_create cfg name fields kwargs db
          hne htypes hnd habs,
        lookupTable_append_new db _ _ habs, rfl⟩
    · exact ⟨db, t,
        constructCore_new cfg name fields kwargs db t hne ht, ht, hcolst⟩
  have hmf : (newInstance name fields kwargs).fields = fields := rfl
  have hmn : (newInstance name fields kwargs).name = name := rfl
  have hc1 : construct cfg name fields [] none kwargs db
      = .ok (db₁, newInstance name fields kwargs, []) := by
    rw [construct_of_core_ok cfg name fields [] none kwargs db db₁
      (newInstance name fields kwargs) hcore]
    rfl
  have hpv : propertyValues (newInstance name fields kwargs)
      = (columnsOf fields).map
          (fun c => getAttr (newInstance name fields kwargs) c) := by
    rw [propertyValues_eq_map, hmf]
  have hlen : (columnsOf fields).length
      = (propertyValues (newInstance name fields kwargs)).length := by
    rw [length_columnsOf, length_propertyValues, hmf]
  have hins := dbInsert_eval db₁ (tableNameOf name) t₁
    (columnsOf fields) (propertyValues (newInstance name fields kwargs))
    ht₁ hcols₁ hlen
  have hsave : modelSave db₁ (newInstance name fields kwargs)
      = .ok (⟨db₁.tables.map (fun p =>
            if p.1 = tableNameOf name then
              (tableNameOf name, ⟨t₁.cols, t₁.rows ++
                [(maxRowId t₁.rows + 1, t₁.cols.map (rowValueAt
                  (columnsOf fields)
                  (propertyValues (newInstance name fields kwargs))))]⟩)
            else p)⟩,
          { newInstance name fields kwargs with
              id := some (maxRowId t₁.rows + 1) },
          .insert (tableNameOf name) (columnsOf fields)
            (propertyValues (newInstance name fields kwargs))) := by
    rw [modelSave]
    rw [if_neg (show ¬(intTruthy (newInstance name fields kwargs).id
      = true) from Bool.false_ne_true)]
    simp only [hmf, hmn]
    rw [hins]
  have ht₂ : lookupTable
      ⟨db₁.tables.map (fun p =>
        if p.1 = tableNameOf name then
          (tableNameOf name, ⟨t₁.cols, t₁.rows ++
            [(maxRowId t₁.rows + 1, t₁.cols.map (rowValueAt
              (columnsOf fields)
              (propertyValues (newInstance name fields kwargs))))]⟩)
        else p)⟩ (tableNameOf name)
      = some ⟨t₁.cols, t₁.rows ++
          [(maxRowId t₁.rows + 1, t₁.cols.map (rowValueAt
            (columnsOf fields)
            (propertyValues (newInstance name fields kwargs))))]⟩ :=
    lookupTable_replace db₁ (tableNameOf name) t₁ _ ht₁
  have hfind : (t₁.rows ++
      [(maxRowId t₁.rows + 1, t₁.cols.map (rowValueAt
        (columnsOf fields)
        (propertyValues (newInstance name fields kwargs))))]).find?
        (fun r => r.1 = maxRowId t₁.rows + 1)
      = some (maxRowId t₁.rows + 1, t₁.cols.map (rowValueAt
          (columnsOf fields)
          (propertyValues (newInstance name fields kwargs)))) := by
    apply find?_fresh_row
    intro r hr
    have := le_maxRowId t₁.rows r hr
    omega
  have hcore₂ := constructCore_byId_found cfg name fields []
    (⟨db₁.tables.map (fun p =>
      if p.1 = tableNameOf name then
        (tableNameOf name, ⟨t₁.cols, t₁.rows ++
          [(maxRowId t₁.rows + 1, t₁.cols.map (rowValueAt
            (columnsOf fields)
            (propertyValues (newInstance name fields kwargs))))]⟩)
      else p)⟩)
    (⟨t₁.cols, t₁.rows ++
      [(maxRowId t₁.rows + 1, t₁.cols.map (rowValueAt
        (columnsOf fields)
        (propertyValues (newInstance name fields kwargs))))]⟩)
    (maxRowId t₁.rows + 1)
    ((maxRowId t₁.rows + 1, t₁.cols.map (rowValueAt
      (columnsOf fields)
      (propertyValues (newInstance name fields kwargs)))))
    hne ht₂ hcols₁ hfind
  have hg : t₁.cols.map (rowValueAt (columnsOf fields)
      (propertyValues (newInstance name fields kwargs)))
      = (columnsOf fields).map
          (fun c => getAttr (newInstance name fields kwargs) c) := by
    rw [hcols₁, hpv]
    apply List.map_congr_left
    intro c hc
    exact rowValueAt_map (columnsOf fields) _ c hc
  have hrec : (columnsOf fields).map (rowValueAt
      (⟨t₁.cols, t₁.rows ++
        [(maxRowId t₁.rows + 1, t₁.cols.map (rowValueAt
          (columnsOf fields)
          (propertyValues (newInstance name fields kwargs))))]⟩ :
            Table).cols
      (t₁.cols.map (rowValueAt (columnsOf fields)
        (propertyValues (newInstance name fields kwargs)))))
      = (columnsOf fields).map
          (fun c => getAttr (newInstance name fields kwargs) c) := by
    show (columnsOf fields).map (rowValueAt t₁.cols
        (t₁.cols.map (rowValueAt (columnsOf fields)
          (propertyValues (newInstance name fields kwargs)))))
      = _
    rw [hg, hcols₁]
    apply List.map_congr_left
    intro c hc
    exact rowValueAt_map (columnsOf fields) _ c hc
  rw [hrec] at hcore₂
  refine ⟨db₁, newInstance name fields kwargs, _,
    { newInstance name fields kwargs with
        id := some (maxRowId t₁.rows + 1) },
    maxRowId t₁.rows + 1,
    loadedInstance name fields (maxRowId t₁.rows + 1)
      ((columnsOf fields).map
        (fun c => getAttr (newInstance name fields kwargs) c)),
    hc1, hsave, rfl, ?_, ?_, ?_⟩
  · show intTruthy (some (maxRowId t₁.rows + 1)) = true
    have h0 := maxRowId_nonneg t₁.rows
    simp only [intTruthy, decide_eq_true_eq]
    omega
  · exact construct_of_core_ok cfg name fields [] _ [] _ _ _ hcore₂
  · intro c hc
    rw [getAttr, getAttrRaw_loadedInstance name fields
      (maxRowId t₁.rows + 1)
      (fun c => getAttr (newInstance name fields kwargs) c) c hc]
    rfl

/-- C1 witness (the spec's example: a fresh store, `Note` saved, then
reloaded by the assigned id). -/
theorem new_save_load_roundtrip_witness :
    noteFields ≠ ([] : List (String × String))
    ∧ (∀ f ∈ noteFields, f.2 = "string" ∨ f.2 = "date")
    ∧ (cfgEx.idField :: columnsOf noteFields).Nodup
    ∧ (lookupTable ⟨[]⟩ (tableNameOf "Note") = none
       ∨ ∃ t, lookupTable ⟨[]⟩ (tableNameOf "Note") = some t
           ∧ t.cols = columnsOf noteFields)
    ∧ ∃ db₁ m db₂ m' newId m'',
        construct cfgEx "Note" noteFields [] none
            [("title", some "a"), ("created", some "2024-01-01")] ⟨[]⟩
          = .ok (db₁, m, [])
        ∧ modelSave db₁ m
            = .ok (db₂, m',
                .insert (tableNameOf "Note") (columnsOf noteFields)
                  (propertyValues m))
        ∧ m' = { m with id := some newId }
        ∧ intTruthy m'.id = true
        ∧ construct cfgEx "Note" noteFields [] (some newId) [] db₂
            = .ok (db₂, m'', [])
        ∧ ∀ c ∈ columnsOf noteFields, getAttr m'' c = getAttr m' c :=
  ⟨by decide, by decide, by decide, Or.inl (by rfl),
   new_save_load_roundtrip cfgEx "Note" noteFields
     [("title", some "a"), ("created", some "2024-01-01")] ⟨[]⟩
     (by decide) (by decide) (by decide) (Or.inl (by rfl))⟩

/-- C3 witness. -/
theorem table_name_derivation_and_memoized_witness :
    (propertyTableName "Note" none).1
      = "tbl_" ++ pyLower "Note"
          ++ (if pyEndsWith (pyLower "Note") "s" then "" else "s")
    ∧ propertyTableName "Note" (propertyTableName "Note" none).2
        = propertyTableName "Note" none :=
  table_name_derivation_and_memoized "Note"

/-- C8 witness. -/
theorem equality_is_fieldwise_and_ignores_id_witness :
    (modelEq noteInst zeroInst = true ↔
      ∀ c ∈ columnsOf noteInst.fields,
        getAttrRaw noteInst.attrs c = getAttrRaw zeroInst.attrs c)
    ∧ modelEq { noteInst with id := some 7 } { zeroInst with id := none }
        = modelEq noteInst zeroInst :=
  equality_is_fieldwise_and_ignores_id noteInst zeroInst (some 7) none

/-- C5 witness. -/
theorem normalization_hooks_isolated_witness :
    (methodNormalize [] noteInst).1
      = ([] : List Hook).foldl (fun s h => (h s).1) noteInst
    ∧ (∀ e, construct cfgEx "Note" noteFields [] none [] noteDB = .error e
        ↔ constructCore cfgEx "Note" noteFields none [] noteDB = .error e)
    ∧ (∀ h : Hook, ∀ hs : List Hook, ∀ e : String,
        (h noteInst).2 = some e →
        methodNormalize (h :: hs) noteInst
          = ((methodNormalize hs (h noteInst).1).1,
             e :: (methodNormalize hs (h noteInst).1).2)) :=
  normalization_hooks_isolated [] noteInst cfgEx "Note" noteFields
    none [] noteDB
